import Mathlib

/-!
Verification development for the block-mining subsystem of the IdleGame1
server (files `src/game/blocks.rs`, `src/game/stateful.rs`, `src/raytrace.rs`).
The Rust code is shallowly embedded: `HashMap`s become association lists
(only lookup, key-wise update, insert and remove are ever used by the code,
so the association-list semantics is exact), `u128` health counters become
`ℕ` (every subtraction in the source is guarded by a zero test), packet
writes become a list of emitted packets, and the `f64` geometry of
`raytrace.rs` is embedded over `ℚ` (the source computations are `+ - * /`
and comparisons; every branch condition in the claims under study has a
margin that dwarfs `f64` rounding, which is noted where it matters).
-/

/-! ## Association-list model of `HashMap` -/

def alookup {κ α : Type} [DecidableEq κ] : List (κ × α) → κ → Option α
  | [], _ => none
  | (k, v) :: t, q => if k = q then some v else alookup t q

def amodify {κ α : Type} [DecidableEq κ] : List (κ × α) → κ → (α → α) → List (κ × α)
  | [], _, _ => []
  | (k, v) :: t, q, f => if k = q then (k, f v) :: amodify t q f else (k, v) :: amodify t q f

def aremove {κ α : Type} [DecidableEq κ] : List (κ × α) → κ → List (κ × α)
  | [], _ => []
  | (k, v) :: t, q => if k = q then aremove t q else (k, v) :: aremove t q

def ainsert {κ α : Type} [DecidableEq κ] (l : List (κ × α)) (k : κ) (v : α) : List (κ × α) :=
  (k, v) :: aremove l k

/-! ## Data model (`src/game/blocks.rs`) -/

/-- Model of `BlockPos` (`mcprotocol::common::play::BlockPos`): integer voxel coordinate. -/
structure BlockPos where
  x : ℤ
  y : ℤ
  z : ℤ
deriving DecidableEq

/-- Model of `AvailableBlockData`: the immutable block-type descriptor.
`u128 initial_health` is embedded as `ℕ`. -/
structure AvailableBlockData where
  block_ordinal : ℕ
  block_id : ℤ
  item_id : ℤ
  initial_health : ℕ
deriving DecidableEq

/-- Model of `DamageableBlock`: descriptor plus mutable remaining health. -/
structure DamageableBlock where
  block_data : AvailableBlockData
  health : ℕ
deriving DecidableEq

/-- One player partition of `BlockSystem::placed_blocks`
(`HashMap<BlockPos, DamageableBlock>`). -/
def Partition : Type := List (BlockPos × DamageableBlock)

instance : DecidableEq Partition := by
  unfold Partition
  infer_instance

/-- Model of `BlockSystem`. `rand_state : rand::rngs::StdRng` is modelled as the
stream of outputs the seeded generator will produce, consumed one value per
`choose` call; this abstracts exactly what the code uses of it (a deterministic
sequence of uniform picks). -/
structure BSystem where
  placed_blocks : List (ℕ × Partition)
  rand_state : List ℕ
deriving DecidableEq

/-- Tracked block of a player at a coordinate: the composed lookup
`placed_blocks.get(&uuid)` then `.get(&pos)` used throughout `BlockSystem`. -/
def blockAt (sys : BSystem) (uuid : ℕ) (pos : BlockPos) : Option DamageableBlock :=
  (alookup sys.placed_blocks uuid).bind (fun part => alookup part pos)

/-- Model of `BlockSystem::current_state`. -/
def current_state (sys : BSystem) (uuid : ℕ) (pos : BlockPos) : Option AvailableBlockData :=
  (blockAt sys uuid pos).map (fun b => b.block_data)

/-- Model of `BlockSystem::remove`. -/
def bs_remove (sys : BSystem) (uuid : ℕ) (pos : BlockPos) :
    Option AvailableBlockData × BSystem :=
  match alookup sys.placed_blocks uuid with
  | none => (none, sys)
  | some part =>
    match alookup part pos with
    | none => (none, sys)
    | some b =>
      let placed1 := amodify sys.placed_blocks uuid (fun pt => aremove pt pos)
      (some b.block_data, { sys with placed_blocks := placed1 })

/-- Model of `BlockSystem::reset_progress`: restore health to the descriptor
initial value; `None` when untracked. -/
def reset_progress (sys : BSystem) (uuid : ℕ) (pos : BlockPos) : Option Unit × BSystem :=
  match alookup sys.placed_blocks uuid with
  | none => (none, sys)
  | some part =>
    match alookup part pos with
    | none => (none, sys)
    | some _ =>
      let placed1 := amodify sys.placed_blocks uuid
        (fun pt => amodify pt pos
          (fun blk => { blk with health := blk.block_data.initial_health }))
      (some (), { sys with placed_blocks := placed1 })

/-- Model of `BlockSystem::attempt_damage_block` (`blocks.rs` lines 217-232):
`None` when untracked; `(0,0)` when health is already `0`; else decrement by 1,
returning `(0,0)` when the decrement reaches `0` and
`(remaining, initial_health)` otherwise. -/
def attempt_damage_block (sys : BSystem) (pos : BlockPos) (uuid : ℕ) :
    Option (ℕ × ℕ) × BSystem :=
  match alookup sys.placed_blocks uuid with
  | none => (none, sys)
  | some part =>
    match alookup part pos with
    | none => (none, sys)
    | some b =>
      if b.health = 0 then (some (0, 0), sys)
      else
        let h := b.health - 1
        let placed1 := amodify sys.placed_blocks uuid
          (fun pt => amodify pt pos (fun blk => { blk with health := h }))
        let sys1 : BSystem := { sys with placed_blocks := placed1 }
        if h = 0 then (some (0, 0), sys1)
        else (some (h, b.block_data.initial_health), sys1)

/-! ## Outbound packets and events (`src/game/stateful.rs`) -/

/-- Model of the clientbound packets this subsystem emits. Chat overlay
messages carry only the data that varies ("Break Progress: R/I" carries the
two numbers; "Block Broken!" carries nothing). -/
inductive Packet where
  | blockUpdate (pos : BlockPos) (state : ℤ)
  | sectionBlocksUpdate (updates : List (BlockPos × ℤ))
  | blockChangedAck (sequence_id : ℤ)
  | blockDestruction (id : ℤ) (pos : BlockPos) (progress : ℕ)
  | chatBreakProgress (remaining initial : ℕ)
  | chatBlockBroken
deriving DecidableEq

/-- Model of `StatefulEvent`. -/
inductive StatefulEvent where
  | blockBroken (pos : BlockPos) (data : AvailableBlockData)
deriving DecidableEq

/-- Model of `CurrentDestroyingState`: the destruction phase. -/
inductive CurrentDestroyingState where
  | none
  | started (pos : BlockPos)
  | aborted (pos : BlockPos)
deriving DecidableEq

/-- Model of `PlayerDestroyingState`. -/
structure PlayerDestroyingState where
  destroying_state : CurrentDestroyingState
  destroying_block_sequence : Option ℤ
  damage_this_tick : Bool
deriving DecidableEq

/-- Model of the player data `continue_destroying` reads: uuid and location
(position plus yaw/pitch orientation), all over `ℚ`. -/
structure Location where
  x : ℚ
  y : ℚ
  z : ℚ
  yaw : ℚ
  pitch : ℚ
deriving DecidableEq

structure Player where
  uuid : ℕ
  loc : Location
deriving DecidableEq

/-- Model of `PlayerDestroyingState::reset_tick`: clear the per-tick damage guard. -/
def reset_tick (st : PlayerDestroyingState) : PlayerDestroyingState :=
  { st with damage_this_tick := false }

/-- Model of `PlayerDestroyingState::ack` (`stateful.rs` lines 252-257):
coalesce a new sequence number into the pending ack. -/
def PlayerDestroyingState.ack (st : PlayerDestroyingState) (seq : ℤ) : PlayerDestroyingState :=
  { st with destroying_block_sequence :=
      match st.destroying_block_sequence with
      | Option.none => some seq
      | some n => some (max n seq) }

/-- Model of `PlayerDestroyingState::execute_ack` (`stateful.rs` lines 246-250):
`take()` the pending sequence and, when present, emit one `BlockChangedAck`. -/
def execute_ack (st : PlayerDestroyingState) : PlayerDestroyingState × List Packet :=
  match st.destroying_block_sequence with
  | some seq => ({ st with destroying_block_sequence := none }, [Packet.blockChangedAck seq])
  | Option.none => (st, [])

/-- Result of one `continue_destroying` call. `damage_invoked` records whether
`BlockSystem::attempt_damage_block` was invoked during the call (it is not a
field of the Rust state; it instruments the call for the per-tick guard claim). -/
structure ContinueResult where
  pstate : PlayerDestroyingState
  system : BSystem
  packets : List Packet
  event : Option StatefulEvent
  damage_invoked : Bool

/-- The damage section of `continue_destroying` (`stateful.rs` lines 309-354),
reached with phase `Started(target)` and no reset applied this call. The `?`
operators of the source are the early-`none` branches. -/
def applyDamage (p : Player) (sys : BSystem) (st : PlayerDestroyingState)
    (target : BlockPos) : ContinueResult :=
  match attempt_damage_block sys target p.uuid with
  | (Option.none, sys1) => ⟨st, sys1, [], none, true⟩
  | (some pr, sys1) =>
    if pr.1 = pr.2 then
      match bs_remove sys1 p.uuid target with
      | (Option.none, sys2) => ⟨st, sys2, [], none, true⟩
      | (some cur, sys2) =>
        ⟨st, sys2, [Packet.blockUpdate target 0, Packet.chatBlockBroken],
          some (StatefulEvent.blockBroken target cur), true⟩
    else ⟨st, sys1, [Packet.chatBreakProgress pr.1 pr.2], none, true⟩

/-- Body of `continue_destroying` after the damage guard has been taken
(`st` already has `damage_this_tick := true`). `ray` abstracts
`RayTraceIterator::new(eye, 10.0)` collected to its output sequence; the
trigonometric direction setup of the real iterator is not representable over
`ℚ`, so the state machine is proved for every ray function, instantiated with
the `ℚ` embedding of the iterator where the claims need it. -/
def continueCore (ray : Location → ℚ → List BlockPos) (p : Player) (sys : BSystem)
    (st : PlayerDestroyingState) : ContinueResult :=
  match st.destroying_state with
  | CurrentDestroyingState.none => ⟨st, sys, [], none, false⟩
  | CurrentDestroyingState.started target => applyDamage p sys st target
  | CurrentDestroyingState.aborted target =>
    let eye : Location := { p.loc with y := p.loc.y + 153 / 100 }
    if target ∈ ray eye 10 then
      let sys1 := (reset_progress sys p.uuid target).2
      let ws := ((current_state sys1 p.uuid target).map (fun d => d.block_id)).getD 0
      ⟨{ st with destroying_state := CurrentDestroyingState.started target }, sys1,
        [Packet.blockUpdate target ws], none, false⟩
    else
      ⟨{ st with destroying_state := CurrentDestroyingState.none }, sys, [], none, false⟩

/-- Model of `PlayerDestroyingState::continue_destroying`
(`stateful.rs` lines 259-355). The eye height bump is `1.8 * 0.85 = 1.53`
(exact over `ℚ`; the `f64` product rounds to the nearest representable value,
which affects no claim here). -/
def continue_destroying (ray : Location → ℚ → List BlockPos) (p : Player) (sys : BSystem)
    (st : PlayerDestroyingState) : ContinueResult :=
  if st.damage_this_tick then ⟨st, sys, [], none, false⟩
  else continueCore ray p sys { st with damage_this_tick := true }

/-- Model of `PlayerDestroyingState::stop_destroying`
(`stateful.rs` lines 372-397). `level` abstracts the static world lookup
`level.clone_necessary_chunk(..).map(.. get_block_id ..).unwrap_or(0)`:
it already carries the empty/air default `0`. -/
def stop_destroying (level : BlockPos → ℤ) (p : Player) (sys : BSystem)
    (st : PlayerDestroyingState) : PlayerDestroyingState × List Packet :=
  match st.destroying_state with
  | CurrentDestroyingState.none => (st, [])
  | CurrentDestroyingState.started pos =>
    let ws := ((current_state sys p.uuid pos).map (fun d => d.block_id)).getD (level pos)
    let r := execute_ack st
    (r.1, Packet.blockUpdate pos ws :: r.2)
  | CurrentDestroyingState.aborted pos =>
    let ws := ((current_state sys p.uuid pos).map (fun d => d.block_id)).getD (level pos)
    let r := execute_ack st
    (r.1, Packet.blockUpdate pos ws :: r.2)

/-- Model of the `StopDestroyBlock` arm of `GlobPlayerState::tick`
(`stateful.rs` lines 158-162): coalesce the packet sequence into the pending
ack, then run `stop_destroying`. -/
def handle_stop_destroy (level : BlockPos → ℤ) (p : Player) (sys : BSystem)
    (st : PlayerDestroyingState) (seq : ℤ) : PlayerDestroyingState × List Packet :=
  stop_destroying level p sys (st.ack seq)

/-- Driver for the per-tick guard claim: run a sequence of
`continue_destroying` calls (arbitrary ray functions and player data per call,
system state threaded through) and count how many invoked the damage
operation. -/
def runTickCount : List ((Location → ℚ → List BlockPos) × Player) → BSystem →
    PlayerDestroyingState → ℕ
  | [], _, _ => 0
  | (r, p) :: rest, sys, st =>
    (if (continue_destroying r p sys st).damage_invoked then 1 else 0) +
      runTickCount rest (continue_destroying r p sys st).system
        (continue_destroying r p sys st).pstate

/-! ## Placement policy (`BlockSystem::tick_for`, `blocks.rs` lines 234-307) -/

/-- The session data `tick_for` reads from `GameSessionPlayer`. -/
structure SessionInfo where
  uuid : ℕ
  current_tick : ℕ
  pstate : PlayerDestroyingState
  unlocked_blocks : List AvailableBlockData
deriving DecidableEq

/-- Model of `SliceRandom::choose(&mut rng)`: `None` exactly on the empty
slice, else a uniformly chosen element, consuming one generator output
(see the `BSystem.rand_state` doc comment). -/
def chooseBlock (l : List AvailableBlockData) (rand : List ℕ) :
    Option AvailableBlockData × List ℕ :=
  match l with
  | [] => (none, rand)
  | a :: rest => (some ((a :: rest).getD (rand.headD 0 % (a :: rest).length) a), rand.tail)

/-- Modelled from the spec: `LevelMediator::validate_positions` and
`LevelMediator::into_updates` live in the external `shovel` crate and are not
part of this repository. Per the spec, placements of one tick are
batched "into a single multi-entry update packet, or a single-entry packet if
exactly one placement occurred", and outbound emission always succeeds, so
position validation is taken to pass. The per-length dispatch below is the
`update_info.len()` match of `tick_for` itself applied to that single batch. -/
def mediator_flush (updates : List (BlockPos × ℤ)) : List Packet :=
  match updates with
  | [] => []
  | [u] => [Packet.blockUpdate u.1 u.2]
  | _ => [Packet.sectionBlocksUpdate updates]

/-- One iteration of the `for placement in placements` loop of `tick_for`:
if the slot is empty, pick a random unlocked descriptor and create a
full-health voxel, recording the block-state update in the mediator. -/
def place_one (unlocked : List AvailableBlockData) (placement : BlockPos)
    (acc : Partition × List (BlockPos × ℤ) × List ℕ) :
    Partition × List (BlockPos × ℤ) × List ℕ :=
  let (part, med, rand) := acc
  if (alookup part placement).isSome then (part, med, rand)
  else
    match chooseBlock unlocked rand with
    | (some block, rand1) =>
      (ainsert part placement ⟨block, block.initial_health⟩,
        med ++ [(placement, block.block_id)], rand1)
    | (Option.none, rand1) => (part, med, rand1)

/-- Model of `BlockSystem::tick_for` (`blocks.rs` lines 234-307). The partition
for the player is created empty when absent; the placement loop runs when
`current_tick % 20 == 0` or the pending destroy-ack sequence
(`destroying_block_sequence`) is present; the resulting mediator batch is
flushed as packets. -/
def tick_for (sys : BSystem) (offset : BlockPos) (sess : SessionInfo) :
    BSystem × List Packet :=
  let part := (alookup sys.placed_blocks sess.uuid).getD []
  if sess.current_tick % 20 = 0 ∨ sess.pstate.destroying_block_sequence.isSome then
    let p1 : BlockPos := ⟨offset.x, offset.y + 2, offset.z⟩
    let p2 : BlockPos := ⟨offset.x - 1, offset.y + 2, offset.z⟩
    let acc1 := place_one sess.unlocked_blocks p1 (part, [], sys.rand_state)
    let acc2 := place_one sess.unlocked_blocks p2 acc1
    (⟨ainsert sys.placed_blocks sess.uuid acc2.1, acc2.2.2⟩, mediator_flush acc2.2.1)
  else
    (⟨ainsert sys.placed_blocks sess.uuid part, sys.rand_state⟩, [])

/-! ## Ray caster (`src/raytrace.rs`), embedded over `ℚ` -/

/-- Model of `Vec3D`. -/
structure Vec3 where
  x : ℚ
  y : ℚ
  z : ℚ
deriving DecidableEq

/-- Model of `RayTraceIterator`: the full mutable iterator state. The Rust
field `local` is renamed `loc` (`local` is a Lean keyword). -/
structure RTState where
  empty : Bool
  has_next_block : Bool
  delta : ℤ × ℤ × ℤ
  delta_div : ℚ × ℚ × ℚ
  loc : ℤ × ℤ × ℤ
  frac : ℚ × ℚ × ℚ
deriving DecidableEq

/-- `RayTraceIterator::LERP_CONSTANT = -1.0E-7`, embedded as the exact
rational (the nearest `f64` differs from it by less than `1e-23`, far below
every branch margin used by the claims). -/
def lerpConstant : ℚ := -(1 / 10000000)

/-- `f64::MAX`, which is exactly `2^1024 - 2^971`. -/
def f64Max : ℚ := 2 ^ 1024 - 2 ^ 971

/-- Model of `RayTraceIterator::lerp`. -/
def rt_lerp (start finish : ℚ) : ℚ := start + lerpConstant * (finish - start)

/-- Rounding toward zero: the `as i32` / `as i64` casts of the source
(all values in the claims are far inside the representable range). -/
def truncQ (q : ℚ) : ℤ := if 0 ≤ q then ⌊q⌋ else -⌊-q⌋

/-- Model of `RayTraceIterator::floor` (and the identical i64 `lfloor`):
truncate, then subtract one when the value is below the truncation. -/
def rt_floor (v : ℚ) : ℤ :=
  let f := truncQ v
  if v < (f : ℚ) then f - 1 else f

/-- Model of `RayTraceIterator::sign`. -/
def rt_sign (v : ℚ) : ℤ :=
  if v = 0 then 0 else if 0 < v then 1 else -1

/-- Model of `RayTraceIterator::frac`. -/
def rt_frac (v : ℚ) : ℚ := v - (rt_floor v : ℚ)

/-- Model of `direction_from_yaw_pitch` (`raytrace.rs` lines 52-62), taken as a
function of the four trigonometric values (sine and cosine are not rational,
so the theorems pass them in; at yaw = pitch = 0 they are exactly 0 and 1,
also in `f64`). -/
def direction_from_yaw_pitch (sin_yaw cos_yaw sin_pitch cos_pitch : ℚ) : Vec3 :=
  let xz := cos_pitch
  ⟨-xz * sin_yaw, -sin_pitch, xz * cos_yaw⟩

/-- The `direction.normalize(); direction *= max_distance;` prefix of
`RayTraceIterator::new`, as a function of the vector length `len` (the square
root is not rational, so theorems supply `len` with its defining equation). -/
def normalize_scale (v : Vec3) (len maxd : ℚ) : Vec3 :=
  ⟨v.x / len * maxd, v.y / len * maxd, v.z / len * maxd⟩

/-- Model of `RayTraceIterator::new` (`raytrace.rs` lines 67-148) after the
direction has been normalized and scaled: `dir` is the scaled direction, so
`end = start + dir`. -/
def rt_new (start dir : Vec3) : RTState :=
  let endp : Vec3 := ⟨start.x + dir.x, start.y + dir.y, start.z + dir.z⟩
  let l_ets_x := rt_lerp endp.x start.x
  let l_ets_y := rt_lerp endp.y start.y
  let l_ets_z := rt_lerp endp.z start.z
  let l_ste_x := rt_lerp start.x endp.x
  let l_ste_y := rt_lerp start.y endp.y
  let l_ste_z := rt_lerp start.z endp.z
  let local_x := rt_floor l_ste_x
  let local_y := rt_floor l_ste_y
  let local_z := rt_floor l_ste_z
  if start = endp then
    ⟨true, false, (-1, -1, -1), (-1, -1, -1), (local_x, local_y, local_z), (-1, -1, -1)⟩
  else
    let delta_x_lerp := l_ets_x - l_ste_x
    let delta_y_lerp := l_ets_y - l_ste_y
    let delta_z_lerp := l_ets_z - l_ste_z
    let ax := rt_sign delta_x_lerp
    let ay := rt_sign delta_y_lerp
    let az := rt_sign delta_z_lerp
    let ax_div := if ax = 0 then f64Max else (ax : ℚ) / delta_x_lerp
    let ay_div := if ay = 0 then f64Max else (ay : ℚ) / delta_y_lerp
    let az_div := if az = 0 then f64Max else (az : ℚ) / delta_z_lerp
    let frac_x := ax_div * (if 0 < ax then 1 - rt_frac l_ste_x else rt_frac l_ste_x)
    let frac_y := ay_div * (if 0 < ay then 1 - rt_frac l_ste_y else rt_frac l_ste_y)
    let frac_z := az_div * (if 0 < az then 1 - rt_frac l_ste_z else rt_frac l_ste_z)
    ⟨false, true, (ax, ay, az), (ax_div, ay_div, az_div),
      (local_x, local_y, local_z), (frac_x, frac_y, frac_z)⟩

/-- Model of `<RayTraceIterator as Iterator>::next` (`raytrace.rs` lines
190-225). -/
def rt_next (s : RTState) : Option BlockPos × RTState :=
  if s.has_next_block = false then (none, s)
  else
    let temp : BlockPos := ⟨s.loc.1, s.loc.2.1, s.loc.2.2⟩
    if 1 < s.frac.1 ∧ 1 < s.frac.2.1 ∧ 1 < s.frac.2.2 then
      (some temp, { s with has_next_block := false, empty := true })
    else if s.frac.1 < s.frac.2.1 then
      if s.frac.1 < s.frac.2.2 then
        let s1 := { s with
          loc := (s.loc.1 + s.delta.1, s.loc.2.1, s.loc.2.2)
          frac := (s.frac.1 + s.delta_div.1, s.frac.2.1, s.frac.2.2) }
        (some temp, s1)
      else
        let s1 := { s with
          loc := (s.loc.1, s.loc.2.1, s.loc.2.2 + s.delta.2.2)
          frac := (s.frac.1, s.frac.2.1, s.frac.2.2 + s.delta_div.2.2) }
        (some temp, s1)
    else if s.frac.2.1 < s.frac.2.2 then
      let s1 := { s with
        loc := (s.loc.1, s.loc.2.1 + s.delta.2.1, s.loc.2.2)
        frac := (s.frac.1, s.frac.2.1 + s.delta_div.2.1, s.frac.2.2) }
      (some temp, s1)
    else
      let s1 := { s with
        loc := (s.loc.1, s.loc.2.1, s.loc.2.2 + s.delta.2.2)
        frac := (s.frac.1, s.frac.2.1, s.frac.2.2 + s.delta_div.2.2) }
      (some temp, s1)

/-- Drive the iterator, collecting outputs until it yields `None` (fuelled;
the claims use enough fuel to reach the natural stop). -/
def rt_run : ℕ → RTState → List BlockPos
  | 0, _ => []
  | n + 1, s =>
    match rt_next s with
    | (Option.none, _) => []
    | (some p, s1) => p :: rt_run n s1

/-! ## Axis selection of the DDA step, and the spec's tie-break -/

inductive Axis where
  | x
  | y
  | z
deriving DecidableEq

/-- Component of an accumulated-fraction triple along an axis. -/
def fget (f : ℚ × ℚ × ℚ) : Axis → ℚ
  | Axis.x => f.1
  | Axis.y => f.2.1
  | Axis.z => f.2.2

/-- Component of an integer triple along an axis. -/
def iget (v : ℤ × ℤ × ℤ) : Axis → ℤ
  | Axis.x => v.1
  | Axis.y => v.2.1
  | Axis.z => v.2.2

/-- Add the matching component of `d` to `v` at axis `a` only. -/
def bumpI (v : ℤ × ℤ × ℤ) (a : Axis) (d : ℤ × ℤ × ℤ) : ℤ × ℤ × ℤ :=
  match a with
  | Axis.x => (v.1 + d.1, v.2.1, v.2.2)
  | Axis.y => (v.1, v.2.1 + d.2.1, v.2.2)
  | Axis.z => (v.1, v.2.1, v.2.2 + d.2.2)

/-- Add the matching component of `d` to `v` at axis `a` only. -/
def bumpF (v : ℚ × ℚ × ℚ) (a : Axis) (d : ℚ × ℚ × ℚ) : ℚ × ℚ × ℚ :=
  match a with
  | Axis.x => (v.1 + d.1, v.2.1, v.2.2)
  | Axis.y => (v.1, v.2.1 + d.2.1, v.2.2)
  | Axis.z => (v.1, v.2.1, v.2.2 + d.2.2)

/-- The axis the advancing branch of `RayTraceIterator::next` actually picks:
the minimal accumulated fraction with ties resolved toward the later axis
(z beats y and x; y beats x). -/
def lastMinAxis (f : ℚ × ℚ × ℚ) : Axis :=
  if f.1 < f.2.1 then (if f.1 < f.2.2 then Axis.x else Axis.z)
  else if f.2.1 < f.2.2 then Axis.y
  else Axis.z

/-- Position of an axis in the (x, y, z) priority order of the spec. -/
def axRank : Axis → ℕ
  | Axis.x => 0
  | Axis.y => 1
  | Axis.z => 2

/-- The axis choice in the words of the spec (claim C5): the smallest
accumulated parametric fraction, with ties broken in (x, y, z) priority
order, so x wins any tie it is part of. -/
def specMinAxis (f : ℚ × ℚ × ℚ) : Axis :=
  if f.1 ≤ f.2.1 ∧ f.1 ≤ f.2.2 then Axis.x
  else if f.2.1 ≤ f.2.2 then Axis.y
  else Axis.z

/-- The placement-cadence condition in the words of the spec (claim C7):
destruction is in progress, read as the destruction phase being `Started` or
`Aborted`, or the tick counter is a multiple of 20. -/
def specPlacementFires (sess : SessionInfo) : Bool :=
  (match sess.pstate.destroying_state with
    | CurrentDestroyingState.none => false
    | _ => true)
  || decide (sess.current_tick % 20 = 0)

/-! ## Concrete iterator states used by the ray-caster claims -/

/-- The successive `RayTraceIterator` states for the claim C6 ray: origin
`(0,0,0)`, direction `+z` scaled to distance 5. Index `n` is the state after
`n` calls to `next`; indices 9 and above are the exhausted state. -/
def c6s : ℕ → RTState
  | 0 => ⟨false, true, (0,0,1), (f64Max, f64Max, 1000000/5000001), (0,0,-1), (0, 0, 1/10000002)⟩
  | 1 => ⟨false, true, (0,0,1), (f64Max, f64Max, 1000000/5000001), (0,0,-1), (0, f64Max, 1/10000002)⟩
  | 2 => ⟨false, true, (0,0,1), (f64Max, f64Max, 1000000/5000001), (0,0,-1), (f64Max, f64Max, 1/10000002)⟩
  | 3 => ⟨false, true, (0,0,1), (f64Max, f64Max, 1000000/5000001), (0,0,0), (f64Max, f64Max, 2000001/10000002)⟩
  | 4 => ⟨false, true, (0,0,1), (f64Max, f64Max, 1000000/5000001), (0,0,1), (f64Max, f64Max, 4000001/10000002)⟩
  | 5 => ⟨false, true, (0,0,1), (f64Max, f64Max, 1000000/5000001), (0,0,2), (f64Max, f64Max, 6000001/10000002)⟩
  | 6 => ⟨false, true, (0,0,1), (f64Max, f64Max, 1000000/5000001), (0,0,3), (f64Max, f64Max, 8000001/10000002)⟩
  | 7 => ⟨false, true, (0,0,1), (f64Max, f64Max, 1000000/5000001), (0,0,4), (f64Max, f64Max, 10000001/10000002)⟩
  | 8 => ⟨false, true, (0,0,1), (f64Max, f64Max, 1000000/5000001), (0,0,5), (f64Max, f64Max, 12000001/10000002)⟩
  | _ => ⟨true, false, (0,0,1), (f64Max, f64Max, 1000000/5000001), (0,0,5), (f64Max, f64Max, 12000001/10000002)⟩

/-- States of the diagonal ray `origin (0,0,0)`, scaled direction `(5,0,5)`,
used to exhibit the tie-breaking of the traversal (claim C5): after the zero
y axis is consumed, the x and z fractions are exactly equal. -/
def c5s : ℕ → RTState
  | 0 => ⟨false, true, (1,0,1), (1000000/5000001, f64Max, 1000000/5000001), (-1,0,-1),
      (1/10000002, 0, 1/10000002)⟩
  | 1 => ⟨false, true, (1,0,1), (1000000/5000001, f64Max, 1000000/5000001), (-1,0,-1),
      (1/10000002, f64Max, 1/10000002)⟩
  | _ => ⟨false, true, (1,0,1), (1000000/5000001, f64Max, 1000000/5000001), (-1,0,0),
      (1/10000002, f64Max, 2000001/10000002)⟩

/-! ## Iterated damage and concrete inputs used by the claims -/

/-- One `damage` call, keeping only the store (`BlockSystem`) effect. -/
def damage_step (uuid : ℕ) (pos : BlockPos) (sys : BSystem) : BSystem :=
  (attempt_damage_block sys pos uuid).2

/-- `k` sequential `damage` calls on the same (player, coordinate). -/
def damage_iter (uuid : ℕ) (pos : BlockPos) (k : ℕ) (sys : BSystem) : BSystem :=
  (damage_step uuid pos)^[k] sys

/-- Concrete descriptors and store states used by witnesses and
counterexamples. -/
def dA : AvailableBlockData := ⟨0, 7, 7, 1⟩

def dB : AvailableBlockData := ⟨1, 9, 9, 5⟩

def dC : AvailableBlockData := ⟨2, 4, 4, 2⟩

def posA : BlockPos := ⟨1, 2, 3⟩

/-- A store tracking for player 0 one voxel at `posA` with descriptor `dA`
(initial health 1) at remaining health 1. -/
def sysA : BSystem := ⟨[(0, [(posA, ⟨dA, 1⟩)])], []⟩

/-- A store tracking for player 0 one voxel with descriptor `dB`
(initial health 5) at remaining health 3. -/
def sysB : BSystem := ⟨[(0, [(posA, ⟨dB, 3⟩)])], []⟩

/-- A store tracking for player 0 one voxel with descriptor `dC`
(initial health 2) at remaining health 2. -/
def sysC : BSystem := ⟨[(0, [(posA, ⟨dC, 2⟩)])], []⟩

def sysEmpty : BSystem := ⟨[], []⟩

def stIdle : PlayerDestroyingState := ⟨CurrentDestroyingState.none, none, false⟩

def playerA : Player := ⟨0, ⟨0, 0, 0, 0, 0⟩⟩

/-- Session on a non-replenishment tick (tick 1) whose destruction phase is
`Started posA` but whose pending ack sequence is `None`. -/
def sessA : SessionInfo := ⟨0, 1, ⟨CurrentDestroyingState.started posA, none, false⟩, [dA]⟩

/-- Session on a replenishment tick (tick 40) with two unlocked descriptors. -/
def sessB : SessionInfo := ⟨0, 40, stIdle, [dA, dB]⟩

/-! ## Helper lemmas -/

theorem alookup_amodify_self {κ α : Type} [DecidableEq κ]
    (l : List (κ × α)) (k : κ) (f : α → α) :
    alookup (amodify l k f) k = (alookup l k).map f := by
  induction l with
  | nil => rfl
  | cons p t ih =>
    obtain ⟨k1, v⟩ := p
    by_cases h : k1 = k
    · subst h
      simp [amodify, alookup]
    · simp [amodify, alookup, h, ih]

theorem alookup_amodify_ne {κ α : Type} [DecidableEq κ]
    (l : List (κ × α)) (k q : κ) (f : α → α) (h : k ≠ q) :
    alookup (amodify l k f) q = alookup l q := by
  induction l with
  | nil => rfl
  | cons p t ih =>
    obtain ⟨k1, v⟩ := p
    by_cases h1 : k1 = k
    · subst h1
      simp [amodify, alookup, h, ih]
    · by_cases h2 : k1 = q <;> simp [amodify, alookup, h1, h2, ih, Ne.symm h]

theorem alookup_aremove_self {κ α : Type} [DecidableEq κ]
    (l : List (κ × α)) (k : κ) :
    alookup (aremove l k) k = none := by
  induction l with
  | nil => rfl
  | cons p t ih =>
    obtain ⟨k1, v⟩ := p
    by_cases h : k1 = k <;> simp [aremove, alookup, h, ih]

theorem alookup_aremove_ne {κ α : Type} [DecidableEq κ]
    (l : List (κ × α)) (k q : κ) (h : k ≠ q) :
    alookup (aremove l k) q = alookup l q := by
  induction l with
  | nil => rfl
  | cons p t ih =>
    obtain ⟨k1, v⟩ := p
    by_cases h1 : k1 = k
    · subst h1
      simp [aremove, alookup, h, ih]
    · by_cases h2 : k1 = q <;> simp [aremove, alookup, h1, h2, ih, Ne.symm h]

theorem alookup_ainsert_self {κ α : Type} [DecidableEq κ]
    (l : List (κ × α)) (k : κ) (v : α) :
    alookup (ainsert l k v) k = some v := by
  simp [ainsert, alookup]

theorem alookup_ainsert_ne {κ α : Type} [DecidableEq κ]
    (l : List (κ × α)) (k q : κ) (v : α) (h : k ≠ q) :
    alookup (ainsert l k v) q = alookup l q := by
  simp [ainsert, alookup, h, alookup_aremove_ne l k q h]

theorem blockAt_eq_some_iff (sys : BSystem) (uuid : ℕ) (pos : BlockPos) (b : DamageableBlock) :
    blockAt sys uuid pos = some b ↔
      ∃ part, alookup sys.placed_blocks uuid = some part ∧ alookup part pos = some b := by
  unfold blockAt
  cases h : alookup sys.placed_blocks uuid <;> simp [h]

/-- The truncate-then-adjust dance of `RayTraceIterator::floor` computes the
mathematical floor. -/
theorem rt_floor_eq_floor (v : ℚ) : rt_floor v = ⌊v⌋ := by
  unfold rt_floor truncQ
  by_cases h : 0 ≤ v
  · rw [if_pos h, if_neg (not_lt.mpr (Int.floor_le v))]
  · rw [if_neg h, Int.floor_neg, neg_neg]
    rcases eq_or_lt_of_le (Int.le_ceil v) with heq | hlt
    · rw [if_neg (not_lt.mpr (le_of_eq heq.symm)), eq_comm, Int.floor_eq_iff]
      refine ⟨le_of_eq heq.symm, ?_⟩
      linarith [Int.le_ceil v]
    · rw [if_pos hlt, eq_comm, Int.floor_eq_iff]
      constructor
      · push_cast
        linarith [Int.ceil_lt_add_one v]
      · push_cast
        linarith

/-- `RayTraceIterator::frac` is the fractional part. -/
theorem rt_frac_eq_fract (v : ℚ) : rt_frac v = Int.fract v := by
  rw [rt_frac, rt_floor_eq_floor, Int.fract]

theorem attempt_damage_untracked (sys : BSystem) (uuid : ℕ) (pos : BlockPos)
    (hb : blockAt sys uuid pos = none) :
    attempt_damage_block sys pos uuid = (none, sys) := by
  unfold attempt_damage_block
  unfold blockAt at hb
  cases hpart : alookup sys.placed_blocks uuid with
  | none => rfl
  | some part =>
    rw [hpart] at hb
    rw [Option.some_bind'] at hb
    simp only [hpart, hb]

theorem attempt_damage_fst (sys : BSystem) (uuid : ℕ) (pos : BlockPos) (b : DamageableBlock)
    (hb : blockAt sys uuid pos = some b) :
    (attempt_damage_block sys pos uuid).1 =
      if b.health = 0 then some (0, 0)
      else if b.health - 1 = 0 then some (0, 0)
      else some (b.health - 1, b.block_data.initial_health) := by
  obtain ⟨part, hpart, hpos⟩ := (blockAt_eq_some_iff sys uuid pos b).mp hb
  unfold attempt_damage_block
  simp only [hpart, hpos]
  by_cases h0 : b.health = 0
  · simp [h0]
  · by_cases h1 : b.health - 1 = 0 <;> simp [h0, h1]

theorem attempt_damage_sys_of_zero (sys : BSystem) (uuid : ℕ) (pos : BlockPos)
    (b : DamageableBlock) (hb : blockAt sys uuid pos = some b) (h0 : b.health = 0) :
    attempt_damage_block sys pos uuid = (some (0, 0), sys) := by
  obtain ⟨part, hpart, hpos⟩ := (blockAt_eq_some_iff sys uuid pos b).mp hb
  unfold attempt_damage_block
  simp only [hpart, hpos]
  simp [h0]

theorem blockAt_amodify (sys : BSystem) (uuid : ℕ) (pos : BlockPos)
    (g : DamageableBlock → DamageableBlock) :
    blockAt
      { sys with placed_blocks := amodify sys.placed_blocks uuid (fun pt => amodify pt pos g) }
      uuid pos = (blockAt sys uuid pos).map g := by
  unfold blockAt
  dsimp only
  rw [alookup_amodify_self]
  cases hpart : alookup sys.placed_blocks uuid with
  | none => rfl
  | some part =>
    simp only [Option.map_some', Option.some_bind']
    rw [alookup_amodify_self]

theorem damage_step_blockAt (sys : BSystem) (uuid : ℕ) (pos : BlockPos)
    (bd : AvailableBlockData) (h : ℕ)
    (hb : blockAt sys uuid pos = some ⟨bd, h⟩) (hh : h ≠ 0) :
    blockAt (damage_step uuid pos sys) uuid pos = some ⟨bd, h - 1⟩ := by
  obtain ⟨part, hpart, hpos⟩ := (blockAt_eq_some_iff sys uuid pos ⟨bd, h⟩).mp hb
  have hkey : damage_step uuid pos sys =
      { sys with
        placed_blocks := amodify sys.placed_blocks uuid
          (fun pt => amodify pt pos (fun blk => { blk with health := h - 1 })) } := by
    unfold damage_step attempt_damage_block
    simp only [hpart, hpos, hh, if_false]
    split <;> rfl
  rw [hkey, blockAt_amodify, hb]
  rfl

theorem damage_iter_blockAt (uuid : ℕ) (pos : BlockPos) (bd : AvailableBlockData) :
    ∀ (k : ℕ) (sys : BSystem) (h : ℕ), blockAt sys uuid pos = some ⟨bd, h⟩ → k ≤ h →
    blockAt (damage_iter uuid pos k sys) uuid pos = some ⟨bd, h - k⟩ := by
  intro k
  induction k with
  | zero =>
    intro sys h hb _
    simpa [damage_iter] using hb
  | succ n ih =>
    intro sys h hb hle
    have hh : h ≠ 0 := by omega
    have hstep := damage_step_blockAt sys uuid pos bd h hb hh
    have hrest := ih (damage_step uuid pos sys) (h - 1) hstep (by omega)
    have harith : h - 1 - n = h - (n + 1) := by omega
    unfold damage_iter at hrest ⊢
    rw [Function.iterate_succ_apply, hrest, harith]

/-! ## Claims -/

/-- C1 (amended): for every player and voxel coordinate, `damage` returns
absent when the coordinate is untracked; returns `(0, 0)` when the remaining
health is already 0 before the call; and otherwise decrements the remaining
health by exactly 1, returning `(0, 0)` when the decremented health reaches 0
and `(new remaining health, descriptor initial health)` otherwise. -/
theorem c1_damage_result_amended (sys : BSystem) (uuid : ℕ) (pos : BlockPos) :
    (blockAt sys uuid pos = none → attempt_damage_block sys pos uuid = (none, sys)) ∧
    (∀ b : DamageableBlock, blockAt sys uuid pos = some b → b.health = 0 →
      attempt_damage_block sys pos uuid = (some (0, 0), sys)) ∧
    (∀ b : DamageableBlock, blockAt sys uuid pos = some b → b.health ≠ 0 →
      blockAt (attempt_damage_block sys pos uuid).2 uuid pos =
        some { b with health := b.health - 1 } ∧
      (attempt_damage_block sys pos uuid).1 =
        (if b.health - 1 = 0 then some (0, 0)
         else some (b.health - 1, b.block_data.initial_health))) := by
  refine ⟨attempt_damage_untracked sys uuid pos, ?_, ?_⟩
  · intro b hb h0
    exact attempt_damage_sys_of_zero sys uuid pos b hb h0
  · intro b hb hh
    constructor
    · have := damage_step_blockAt sys uuid pos b.block_data b.health ?hb hh
      · exact this
      · rw [hb]
    · rw [attempt_damage_fst sys uuid pos b hb, if_neg hh]

/-- C1 witness: `c1_damage_result_amended` applied to the concrete store
`sysB` (tracked voxel, remaining health 3, initial health 5): the call
returns `(2, 5)` and the stored health drops to 2. -/
theorem c1_damage_result_amended_witness :
    blockAt (attempt_damage_block sysB posA 0).2 0 posA = some ⟨dB, 2⟩ ∧
    (attempt_damage_block sysB posA 0).1 = some (2, 5) := by
  have h := ((c1_damage_result_amended sysB 0 posA).2.2) ⟨dB, 3⟩ (by decide) (by decide)
  refine ⟨h.1, ?_⟩
  rw [h.2]
  decide

/-- C1 counterexample: on a tracked voxel with descriptor initial health 1 and
remaining health 1, the call decrements to 0 and returns `(0, 0)`, whereas the
claim as stated requires the pair (new remaining health, initial health),
which here is `(0, 1)`. -/
theorem c1_counterexample :
    blockAt sysA 0 posA = some ⟨dA, 1⟩ ∧ dA.initial_health = 1 ∧
    (attempt_damage_block sysA posA 0).1 = some (0, 0) ∧
    some ((0 : ℕ), (0 : ℕ)) ≠ some ((0 : ℕ), dA.initial_health) := by
  decide

/-- C2: for a tracked voxel whose descriptor has initial health `H ≥ 1` and
whose remaining health is `H`, the `H`-th sequential `damage` call returns
remaining health 0 (the pair `(0, 0)`), and the `(H+1)`-th call also returns
exactly `(0, 0)`. -/
theorem c2_h_damage_calls (sys : BSystem) (uuid : ℕ) (pos : BlockPos)
    (bd : AvailableBlockData) (H : ℕ)
    (hb : blockAt sys uuid pos = some ⟨bd, H⟩) (_hinit : bd.initial_health = H)
    (hH : 1 ≤ H) :
    (attempt_damage_block (damage_iter uuid pos (H - 1) sys) pos uuid).1 = some (0, 0) ∧
    (attempt_damage_block (damage_iter uuid pos H sys) pos uuid).1 = some (0, 0) := by
  constructor
  · have hstate := damage_iter_blockAt uuid pos bd (H - 1) sys H hb (by omega)
    have h1 : H - (H - 1) = 1 := by omega
    rw [h1] at hstate
    rw [attempt_damage_fst _ uuid pos ⟨bd, 1⟩ hstate]
    norm_num
  · have hstate := damage_iter_blockAt uuid pos bd H sys H hb (by omega)
    have h0 : H - H = 0 := by omega
    rw [h0] at hstate
    rw [attempt_damage_fst _ uuid pos ⟨bd, 0⟩ hstate]
    norm_num

/-- C2 witness: `c2_h_damage_calls` on the concrete store `sysC`
(descriptor `dC`, initial health 2, remaining health 2): the 2nd call returns
`(0, 0)` and so does the 3rd. -/
theorem c2_h_damage_calls_witness :
    (attempt_damage_block (damage_iter 0 posA 1 sysC) posA 0).1 = some (0, 0) ∧
    (attempt_damage_block (damage_iter 0 posA 2 sysC) posA 0).1 = some (0, 0) :=
  c2_h_damage_calls sysC 0 posA dC 2 (by decide) (by decide) (by decide)

/-- C3: the pending ack is coalesced monotonically: recording a sequence sets
the pending value when none was pending and `max(old, new)` otherwise; after
recording 3, 7, 5 the single flush emits exactly one ack carrying 7 and
clears the pending value. -/
theorem c3_ack_coalescing (st : PlayerDestroyingState) (n seq : ℤ) :
    (st.destroying_block_sequence = none →
      (st.ack seq).destroying_block_sequence = some seq) ∧
    (st.destroying_block_sequence = some n →
      (st.ack seq).destroying_block_sequence = some (max n seq)) ∧
    (execute_ack (((stIdle.ack 3).ack 7).ack 5)).2 = [Packet.blockChangedAck 7] ∧
    (execute_ack (((stIdle.ack 3).ack 7).ack 5)).1.destroying_block_sequence = none := by
  refine ⟨?_, ?_, by decide, by decide⟩
  · intro h
    unfold PlayerDestroyingState.ack
    rw [h]
  · intro h
    unfold PlayerDestroyingState.ack
    rw [h]

/-- C3 witness: `c3_ack_coalescing` at concrete pending states: from no
pending value, recording 9 pends 9; from pending 3, recording 7 pends
`max 3 7`. -/
theorem c3_ack_coalescing_witness :
    (stIdle.ack 9).destroying_block_sequence = some 9 ∧
    (((⟨CurrentDestroyingState.none, some 3, false⟩ : PlayerDestroyingState).ack
      7).destroying_block_sequence) = some (max 3 7) :=
  ⟨(c3_ack_coalescing stIdle 0 9).1 rfl,
   (c3_ack_coalescing ⟨CurrentDestroyingState.none, some 3, false⟩ 3 7).2.1 rfl⟩

theorem applyDamage_pstate (p : Player) (sys : BSystem) (st : PlayerDestroyingState)
    (target : BlockPos) : (applyDamage p sys st target).pstate = st := by
  unfold applyDamage
  split
  · rfl
  · split
    · split <;> rfl
    · rfl

theorem applyDamage_invoked (p : Player) (sys : BSystem) (st : PlayerDestroyingState)
    (target : BlockPos) : (applyDamage p sys st target).damage_invoked = true := by
  unfold applyDamage
  split
  · rfl
  · split
    · split <;> rfl
    · rfl

theorem continueCore_pstate_flag (ray : Location → ℚ → List BlockPos) (p : Player)
    (sys : BSystem) (st : PlayerDestroyingState) :
    (continueCore ray p sys st).pstate.damage_this_tick = st.damage_this_tick := by
  unfold continueCore
  split
  · rfl
  · rw [applyDamage_pstate]
  · dsimp only
    split <;> rfl

theorem continue_flag_of_true (ray : Location → ℚ → List BlockPos) (p : Player)
    (sys : BSystem) (st : PlayerDestroyingState) (h : st.damage_this_tick = true) :
    continue_destroying ray p sys st = ⟨st, sys, [], none, false⟩ := by
  unfold continue_destroying
  rw [h]
  rfl

theorem continue_flag_after (ray : Location → ℚ → List BlockPos) (p : Player)
    (sys : BSystem) (st : PlayerDestroyingState) :
    (continue_destroying ray p sys st).pstate.damage_this_tick = true := by
  by_cases h : st.damage_this_tick
  · rw [continue_flag_of_true ray p sys st h]
    exact h
  · unfold continue_destroying
    rw [if_neg h, continueCore_pstate_flag]

theorem runTickCount_of_flag (ctxs : List ((Location → ℚ → List BlockPos) × Player)) :
    ∀ (sys : BSystem) (st : PlayerDestroyingState), st.damage_this_tick = true →
    runTickCount ctxs sys st = 0 := by
  induction ctxs with
  | nil =>
    intro sys st _
    rfl
  | cons c rest ih =>
    obtain ⟨r, p⟩ := c
    intro sys st h
    unfold runTickCount
    rw [continue_flag_of_true r p sys st h]
    simpa using ih sys st h

/-- C4: within a single game tick, i.e. starting from the state left by
`reset_tick` (the guard clear) and for every sequence of continuation calls
before the next clear, the damage operation of the voxel store is invoked at
most once. -/
theorem c4_damage_once_per_tick (ctxs : List ((Location → ℚ → List BlockPos) × Player))
    (sys : BSystem) (st : PlayerDestroyingState) :
    runTickCount ctxs sys (reset_tick st) ≤ 1 := by
  cases ctxs with
  | nil => simp [runTickCount]
  | cons c rest =>
    obtain ⟨r, p⟩ := c
    unfold runTickCount
    have hflag := continue_flag_after r p sys (reset_tick st)
    rw [runTickCount_of_flag rest _ _ hflag]
    split <;> omega

theorem ack_pending (st : PlayerDestroyingState) (seq : ℤ) :
    (st.ack seq).destroying_block_sequence =
      some (match st.destroying_block_sequence with
            | Option.none => seq
            | some n => max n seq) := by
  unfold PlayerDestroyingState.ack
  cases h : st.destroying_block_sequence <;> rfl

theorem execute_ack_phase (st : PlayerDestroyingState) :
    (execute_ack st).1.destroying_state = st.destroying_state := by
  unfold execute_ack
  split <;> rfl

theorem stop_destroying_phase (level : BlockPos → ℤ) (p : Player) (sys : BSystem)
    (st : PlayerDestroyingState) :
    (stop_destroying level p sys st).1.destroying_state = st.destroying_state := by
  unfold stop_destroying
  split
  · rfl
  · exact execute_ack_phase st
  · exact execute_ack_phase st

theorem continue_started_invokes (ray : Location → ℚ → List BlockPos) (p : Player)
    (sys : BSystem) (st : PlayerDestroyingState) (pos : BlockPos)
    (hst : st.destroying_state = CurrentDestroyingState.started pos)
    (hflag : st.damage_this_tick = false) :
    (continue_destroying ray p sys st).damage_invoked = true := by
  unfold continue_destroying
  rw [if_neg (by rw [hflag]; exact Bool.false_ne_true)]
  unfold continueCore
  simp only [hst]
  exact applyDamage_invoked p sys _ pos

/-- C10: handling a `StopDestroy` input (coalesce the ack, then
`stop_destroying`) never transitions the destruction phase; from `Idle`
nothing is emitted (only the ack is pended); from `Started`/`Aborted` it sends
the resolved block state (tracked state, else the static level state) and
flushes the pending ack in that one packet pair; and from `Started(pos)` the
next tick's continuation still invokes the damage operation. -/
theorem c10_stop_preserves_phase (level : BlockPos → ℤ) (p : Player) (sys : BSystem)
    (st : PlayerDestroyingState) (seq : ℤ) :
    (handle_stop_destroy level p sys st seq).1.destroying_state = st.destroying_state ∧
    (st.destroying_state = CurrentDestroyingState.none →
      handle_stop_destroy level p sys st seq = (st.ack seq, [])) ∧
    (∀ pos : BlockPos, st.destroying_state = CurrentDestroyingState.started pos ∨
        st.destroying_state = CurrentDestroyingState.aborted pos →
      (handle_stop_destroy level p sys st seq).1.destroying_block_sequence = none ∧
      (handle_stop_destroy level p sys st seq).2 =
        [Packet.blockUpdate pos
            (((current_state sys p.uuid pos).map (fun d => d.block_id)).getD (level pos)),
          Packet.blockChangedAck
            (match st.destroying_block_sequence with
              | Option.none => seq
              | some n => max n seq)]) ∧
    (∀ (pos : BlockPos) (ray : Location → ℚ → List BlockPos) (sys2 : BSystem),
      st.destroying_state = CurrentDestroyingState.started pos →
      (continue_destroying ray p sys2
        (reset_tick (handle_stop_destroy level p sys st seq).1)).damage_invoked = true) := by
  have hphase0 : (st.ack seq).destroying_state = st.destroying_state := rfl
  have hphase : (handle_stop_destroy level p sys st seq).1.destroying_state =
      st.destroying_state := by
    unfold handle_stop_destroy
    rw [stop_destroying_phase, hphase0]
  have hexec : execute_ack (st.ack seq) =
      ({ st.ack seq with destroying_block_sequence := none },
        [Packet.blockChangedAck
          (match st.destroying_block_sequence with
            | Option.none => seq
            | some n => max n seq)]) := by
    unfold execute_ack
    rw [ack_pending st seq]
  refine ⟨hphase, ?_, ?_, ?_⟩
  · intro hds
    unfold handle_stop_destroy stop_destroying
    have : (st.ack seq).destroying_state = CurrentDestroyingState.none := by
      rw [hphase0, hds]
    simp only [this]
  · intro pos hds
    unfold handle_stop_destroy stop_destroying
    rcases hds with hds | hds
    · have hds1 : (st.ack seq).destroying_state = CurrentDestroyingState.started pos := by
        rw [hphase0, hds]
      simp only [hds1]
      rw [hexec]
      exact ⟨rfl, rfl⟩
    · have hds1 : (st.ack seq).destroying_state = CurrentDestroyingState.aborted pos := by
        rw [hphase0, hds]
      simp only [hds1]
      rw [hexec]
      exact ⟨rfl, rfl⟩
  · intro pos ray sys2 hds
    refine continue_started_invokes ray p sys2 _ pos ?_ rfl
    show (reset_tick (handle_stop_destroy level p sys st seq).1).destroying_state = _
    unfold reset_tick
    dsimp only
    rw [hphase, hds]

/-- C10 witness: `c10_stop_preserves_phase` at a concrete `Started posA` state
with pending ack 4, sequence 6, on the store `sysA` (which tracks `posA` with
block id 7): the phase stays `Started posA`, the resolved update and the
coalesced ack `max 4 6` are emitted, and the following tick still damages. -/
theorem c10_stop_preserves_phase_witness :
    (handle_stop_destroy (fun _ => 0) playerA sysA
        ⟨CurrentDestroyingState.started posA, some 4, false⟩ 6).1.destroying_state =
      CurrentDestroyingState.started posA ∧
    (handle_stop_destroy (fun _ => 0) playerA sysA
        ⟨CurrentDestroyingState.started posA, some 4, false⟩ 6).2 =
      [Packet.blockUpdate posA 7, Packet.blockChangedAck (max 4 6)] ∧
    (continue_destroying (fun _ _ => []) playerA sysEmpty
      (reset_tick (handle_stop_destroy (fun _ => 0) playerA sysA
        ⟨CurrentDestroyingState.started posA, some 4, false⟩ 6).1)).damage_invoked = true := by
  have h := c10_stop_preserves_phase (fun _ => 0) playerA sysA
    ⟨CurrentDestroyingState.started posA, some 4, false⟩ 6
  have h1 := h.1
  have h2 := (h.2.2.1 posA (Or.inl rfl)).2
  have h3 := h.2.2.2 posA (fun _ _ => []) sysEmpty rfl
  refine ⟨by rw [h1], ?_, h3⟩
  rw [h2]
  decide

/-- C9: with phase `Aborted(c)` and the damage guard clear, the continuation
consults the ray cast from the eye position (feet y raised by
`1.8 * 0.85 = 153/100`) with max distance 10 along the current orientation;
when `c` occurs in the ray output it resets the tracked voxel to its
descriptor initial health, sends the restored block state, moves the phase to
`Started(c)` and invokes no damage; when `c` does not occur the phase becomes
`Idle` and nothing else happens. Stated for every ray-output function, which
is how the embedding abstracts `RayTraceIterator::new(eye, 10.0)`. -/
theorem c9_aborted_continuation (ray : Location → ℚ → List BlockPos) (p : Player)
    (sys : BSystem) (st : PlayerDestroyingState) (c : BlockPos) (b : DamageableBlock)
    (hst : st.destroying_state = CurrentDestroyingState.aborted c)
    (hflag : st.damage_this_tick = false)
    (hb : blockAt sys p.uuid c = some b) :
    (c ∈ ray { p.loc with y := p.loc.y + 153 / 100 } 10 →
      (continue_destroying ray p sys st).pstate.destroying_state =
        CurrentDestroyingState.started c ∧
      blockAt (continue_destroying ray p sys st).system p.uuid c =
        some ⟨b.block_data, b.block_data.initial_health⟩ ∧
      (continue_destroying ray p sys st).packets =
        [Packet.blockUpdate c b.block_data.block_id] ∧
      (continue_destroying ray p sys st).damage_invoked = false ∧
      (continue_destroying ray p sys st).event = none) ∧
    (c ∉ ray { p.loc with y := p.loc.y + 153 / 100 } 10 →
      (continue_destroying ray p sys st).pstate.destroying_state =
        CurrentDestroyingState.none ∧
      (continue_destroying ray p sys st).system = sys ∧
      (continue_destroying ray p sys st).packets = [] ∧
      (continue_destroying ray p sys st).damage_invoked = false ∧
      (continue_destroying ray p sys st).event = none) := by
  obtain ⟨part, hpart, hpos⟩ := (blockAt_eq_some_iff sys p.uuid c b).mp hb
  have hreset : (reset_progress sys p.uuid c).2 =
      { sys with
        placed_blocks := amodify sys.placed_blocks p.uuid
          (fun pt => amodify pt c
            (fun blk => { blk with health := blk.block_data.initial_health })) } := by
    unfold reset_progress
    simp only [hpart, hpos]
  have hafter : blockAt (reset_progress sys p.uuid c).2 p.uuid c =
      some ⟨b.block_data, b.block_data.initial_health⟩ := by
    rw [hreset, blockAt_amodify, hb]
    rfl
  have hcs : current_state (reset_progress sys p.uuid c).2 p.uuid c = some b.block_data := by
    unfold current_state
    rw [hafter]
    rfl
  have hcont : continue_destroying ray p sys st =
      continueCore ray p sys { st with damage_this_tick := true } := by
    unfold continue_destroying
    rw [if_neg (by rw [hflag]; exact Bool.false_ne_true)]
  rw [hcont]
  unfold continueCore
  simp only [hst]
  constructor
  · intro hmem
    rw [if_pos hmem]
    refine ⟨rfl, hafter, ?_, rfl, rfl⟩
    dsimp only
    rw [hcs]
    rfl
  · intro hmem
    rw [if_neg hmem]
    exact ⟨rfl, rfl, rfl, rfl, rfl⟩

/-- C9 witness: `c9_aborted_continuation` applied twice at the concrete store
`sysB` (tracked voxel `posA`, descriptor `dB`, damaged to health 3): with a
ray that does contain `posA` the phase becomes `Started posA`, the health is
restored to 5 and the restored state with block id 9 is pushed; with a ray
that does not contain `posA` the phase becomes `Idle`. -/
theorem c9_aborted_continuation_witness :
    ((continue_destroying (fun _ _ => [posA]) playerA sysB
        ⟨CurrentDestroyingState.aborted posA, none, false⟩).pstate.destroying_state =
      CurrentDestroyingState.started posA ∧
    blockAt (continue_destroying (fun _ _ => [posA]) playerA sysB
        ⟨CurrentDestroyingState.aborted posA, none, false⟩).system 0 posA = some ⟨dB, 5⟩ ∧
    (continue_destroying (fun _ _ => [posA]) playerA sysB
        ⟨CurrentDestroyingState.aborted posA, none, false⟩).packets =
      [Packet.blockUpdate posA 9]) ∧
    (continue_destroying (fun _ _ => []) playerA sysB
        ⟨CurrentDestroyingState.aborted posA, none, false⟩).pstate.destroying_state =
      CurrentDestroyingState.none := by
  have h1 := (c9_aborted_continuation (fun _ _ => [posA]) playerA sysB
    ⟨CurrentDestroyingState.aborted posA, none, false⟩ posA ⟨dB, 3⟩ rfl rfl
    (by decide)).1 (by simp)
  have h2 := (c9_aborted_continuation (fun _ _ => []) playerA sysB
    ⟨CurrentDestroyingState.aborted posA, none, false⟩ posA ⟨dB, 3⟩ rfl rfl
    (by decide)).2 (by simp)
  exact ⟨⟨h1.1, h1.2.1, h1.2.2.1⟩, h2.1⟩

theorem chooseBlock_mem (l : List AvailableBlockData) (rand : List ℕ) (a : AvailableBlockData)
    (h : (chooseBlock l rand).1 = some a) : a ∈ l := by
  cases l with
  | nil => simp [chooseBlock] at h
  | cons x rest =>
    simp only [chooseBlock] at h
    have heq : (x :: rest).getD (rand.headD 0 % (x :: rest).length) x = a :=
      Option.some_injective _ h
    rcases lt_or_ge (rand.headD 0 % (x :: rest).length) (x :: rest).length with hlt | hge
    · rw [List.getD_eq_getElem _ _ hlt] at heq
      rw [← heq]
      exact List.getElem_mem hlt
    · rw [List.getD_eq_default _ _ hge] at heq
      rw [← heq]
      exact List.mem_cons_self x rest

theorem chooseBlock_isSome (l : List AvailableBlockData) (rand : List ℕ) (hl : l ≠ []) :
    ((chooseBlock l rand).1).isSome := by
  cases l with
  | nil => exact absurd rfl hl
  | cons x rest => rfl

theorem place_one_other (unlocked : List AvailableBlockData) (placement pos : BlockPos)
    (acc : Partition × List (BlockPos × ℤ) × List ℕ) (h : pos ≠ placement) :
    alookup (place_one unlocked placement acc).1 pos = alookup acc.1 pos := by
  obtain ⟨part, med, rand⟩ := acc
  unfold place_one
  dsimp only
  split
  · rfl
  · split
    · exact alookup_ainsert_ne part placement pos _ (Ne.symm h)
    · rfl

theorem place_one_present (unlocked : List AvailableBlockData) (placement : BlockPos)
    (acc : Partition × List (BlockPos × ℤ) × List ℕ) (hu : unlocked ≠ []) :
    (alookup (place_one unlocked placement acc).1 placement).isSome := by
  obtain ⟨part, med, rand⟩ := acc
  unfold place_one
  dsimp only
  split
  · next h => exact h
  · next h =>
    rcases hc : chooseBlock unlocked rand with ⟨o, rand1⟩
    have hsome := chooseBlock_isSome unlocked rand hu
    rw [hc] at hsome
    cases o with
    | none => exact absurd hsome (by simp)
    | some block =>
      dsimp only
      rw [alookup_ainsert_self]
      rfl

/-- C7 (amended): the per-tick placement entry point attempts placement at the
two fixed offsets exactly when the pending destroy-ack sequence
(`destroying_block_sequence`) is present or the tick counter is a multiple of
20; on all other ticks it creates no voxels and emits nothing. (The source
guard reads the pending ack field, not the destruction phase.) -/
theorem c7_placement_cadence_amended (sys : BSystem) (offset : BlockPos) (sess : SessionInfo) :
    (¬(sess.current_tick % 20 = 0 ∨ sess.pstate.destroying_block_sequence.isSome = true) →
      (∀ pos, blockAt (tick_for sys offset sess).1 sess.uuid pos = blockAt sys sess.uuid pos) ∧
      (tick_for sys offset sess).2 = []) ∧
    ((sess.current_tick % 20 = 0 ∨ sess.pstate.destroying_block_sequence.isSome = true) →
      sess.unlocked_blocks ≠ [] →
      (blockAt (tick_for sys offset sess).1 sess.uuid
        ⟨offset.x, offset.y + 2, offset.z⟩).isSome ∧
      (blockAt (tick_for sys offset sess).1 sess.uuid
        ⟨offset.x - 1, offset.y + 2, offset.z⟩).isSome ∧
      (∀ pos, pos ≠ ⟨offset.x, offset.y + 2, offset.z⟩ →
        pos ≠ ⟨offset.x - 1, offset.y + 2, offset.z⟩ →
        blockAt (tick_for sys offset sess).1 sess.uuid pos = blockAt sys sess.uuid pos)) := by
  have hne : (⟨offset.x, offset.y + 2, offset.z⟩ : BlockPos) ≠
      ⟨offset.x - 1, offset.y + 2, offset.z⟩ := by
    intro h
    injection h with hx hy hz
    omega
  have hgetD : ∀ pos, alookup ((alookup sys.placed_blocks sess.uuid).getD []) pos =
      blockAt sys sess.uuid pos := by
    intro pos
    unfold blockAt
    cases hpart : alookup sys.placed_blocks sess.uuid <;> simp [hpart, alookup]
  constructor
  · intro hnot
    unfold tick_for
    rw [if_neg hnot]
    refine ⟨?_, rfl⟩
    intro pos
    unfold blockAt
    dsimp only
    rw [alookup_ainsert_self]
    simp only [Option.some_bind']
    exact hgetD pos
  · intro hcond hu
    unfold tick_for
    rw [if_pos hcond]
    dsimp only
    refine ⟨?_, ?_, ?_⟩
    · unfold blockAt
      dsimp only
      rw [alookup_ainsert_self]
      simp only [Option.some_bind']
      rw [place_one_other _ _ _ _ hne]
      exact place_one_present _ _ _ hu
    · unfold blockAt
      dsimp only
      rw [alookup_ainsert_self]
      simp only [Option.some_bind']
      exact place_one_present _ _ _ hu
    · intro pos hp1 hp2
      unfold blockAt
      dsimp only
      rw [alookup_ainsert_self]
      simp only [Option.some_bind']
      rw [place_one_other _ _ _ _ hp2, place_one_other _ _ _ _ hp1]
      exact hgetD pos

/-- C7 witness: `c7_placement_cadence_amended` at concrete sessions: on tick
40 (a multiple of 20) with unlocked descriptors the first fixed offset gets
populated; on tick 1 with no pending ack (session `sessA`) nothing changes. -/
theorem c7_placement_cadence_amended_witness :
    (blockAt (tick_for sysEmpty ⟨0, 0, 0⟩ sessB).1 0 ⟨0, 2, 0⟩).isSome ∧
    (∀ pos, blockAt (tick_for sysEmpty ⟨0, 0, 0⟩ sessA).1 0 pos = blockAt sysEmpty 0 pos) := by
  have h1 := (c7_placement_cadence_amended sysEmpty ⟨0, 0, 0⟩ sessB).2
    (Or.inl (by decide)) (by decide)
  have h2 := (c7_placement_cadence_amended sysEmpty ⟨0, 0, 0⟩ sessA).1 (by decide)
  exact ⟨by simpa using h1.1, h2.1⟩

/-- C7 counterexample: session `sessA` is on tick 1 with destruction phase
`Started posA` (destruction in progress in the sense of the claim) but no
pending ack sequence; the claim as stated requires a placement attempt, yet
the code creates no voxel at the first offset and emits nothing. -/
theorem c7_counterexample :
    specPlacementFires sessA = true ∧
    sessA.unlocked_blocks ≠ [] ∧
    blockAt (tick_for sysEmpty ⟨0, 0, 0⟩ sessA).1 0 ⟨0, 2, 0⟩ = none ∧
    (tick_for sysEmpty ⟨0, 0, 0⟩ sessA).2 = [] := by
  decide

/-- C8: running the placement entry point on a fresh (absent or empty)
partition with the two fixed offsets unoccupied, a non-empty unlocked list,
and the cadence guard firing (a replenishment tick) creates exactly two
full-health voxels whose descriptors come from the unlocked list, and emits
exactly one batched block-state update packet with exactly two entries. -/
theorem c8_fresh_placement (sys : BSystem) (offset : BlockPos) (sess : SessionInfo)
    (hfresh : (alookup sys.placed_blocks sess.uuid).getD [] = ([] : Partition))
    (hfire : sess.current_tick % 20 = 0)
    (hu : sess.unlocked_blocks ≠ []) :
    ∃ b1 b2 : AvailableBlockData, b1 ∈ sess.unlocked_blocks ∧ b2 ∈ sess.unlocked_blocks ∧
      alookup (tick_for sys offset sess).1.placed_blocks sess.uuid =
        some [(⟨offset.x - 1, offset.y + 2, offset.z⟩, ⟨b2, b2.initial_health⟩),
              (⟨offset.x, offset.y + 2, offset.z⟩, ⟨b1, b1.initial_health⟩)] ∧
      (tick_for sys offset sess).2 =
        [Packet.sectionBlocksUpdate
          [(⟨offset.x, offset.y + 2, offset.z⟩, b1.block_id),
           (⟨offset.x - 1, offset.y + 2, offset.z⟩, b2.block_id)]] := by
  have hne : (⟨offset.x, offset.y + 2, offset.z⟩ : BlockPos) ≠
      ⟨offset.x - 1, offset.y + 2, offset.z⟩ := by
    intro h
    injection h with hx hy hz
    omega
  rcases hc1 : chooseBlock sess.unlocked_blocks sys.rand_state with ⟨o1, rand1⟩
  have h1 := chooseBlock_isSome sess.unlocked_blocks sys.rand_state hu
  rw [hc1] at h1
  cases o1 with
  | none => exact absurd h1 (by simp)
  | some b1 =>
    rcases hc2 : chooseBlock sess.unlocked_blocks rand1 with ⟨o2, rand2⟩
    have h2 := chooseBlock_isSome sess.unlocked_blocks rand1 hu
    rw [hc2] at h2
    cases o2 with
    | none => exact absurd h2 (by simp)
    | some b2 =>
      have hacc1 : place_one sess.unlocked_blocks ⟨offset.x, offset.y + 2, offset.z⟩
          (([] : Partition), [], sys.rand_state) =
          ([(⟨offset.x, offset.y + 2, offset.z⟩, ⟨b1, b1.initial_health⟩)],
            [(⟨offset.x, offset.y + 2, offset.z⟩, b1.block_id)], rand1) := by
        unfold place_one
        dsimp only
        rw [hc1]
        simp [alookup, ainsert, aremove]
      have hacc2 : place_one sess.unlocked_blocks ⟨offset.x - 1, offset.y + 2, offset.z⟩
          ([(⟨offset.x, offset.y + 2, offset.z⟩, ⟨b1, b1.initial_health⟩)],
            [(⟨offset.x, offset.y + 2, offset.z⟩, b1.block_id)], rand1) =
          ([(⟨offset.x - 1, offset.y + 2, offset.z⟩, ⟨b2, b2.initial_health⟩),
            (⟨offset.x, offset.y + 2, offset.z⟩, ⟨b1, b1.initial_health⟩)],
            [(⟨offset.x, offset.y + 2, offset.z⟩, b1.block_id),
             (⟨offset.x - 1, offset.y + 2, offset.z⟩, b2.block_id)], rand2) := by
        unfold place_one
        dsimp only
        rw [hc2]
        simp [alookup, ainsert, aremove, hne, Ne.symm hne]
      refine ⟨b1, b2, chooseBlock_mem _ _ _ (by rw [hc1]), chooseBlock_mem _ _ _ (by rw [hc2]),
        ?_, ?_⟩
      · unfold tick_for
        rw [if_pos (Or.inl hfire)]
        dsimp only
        rw [hfresh, hacc1, hacc2]
        exact alookup_ainsert_self _ _ _
      · unfold tick_for
        rw [if_pos (Or.inl hfire)]
        dsimp only
        rw [hfresh, hacc1, hacc2]
        rfl

/-- C8 witness: `c8_fresh_placement` on the empty store, anchor `(0,0,0)`,
session `sessB` (tick 40, unlocked `[dA, dB]`): yields the two-entry partition
and one batched two-entry packet. -/
theorem c8_fresh_placement_witness :
    ∃ b1 b2 : AvailableBlockData, b1 ∈ sessB.unlocked_blocks ∧ b2 ∈ sessB.unlocked_blocks ∧
      alookup (tick_for sysEmpty ⟨0, 0, 0⟩ sessB).1.placed_blocks 0 =
        some [(⟨0 - 1, 0 + 2, 0⟩, ⟨b2, b2.initial_health⟩),
              (⟨0, 0 + 2, 0⟩, ⟨b1, b1.initial_health⟩)] ∧
      (tick_for sysEmpty ⟨0, 0, 0⟩ sessB).2 =
        [Packet.sectionBlocksUpdate [(⟨0, 0 + 2, 0⟩, b1.block_id),
          (⟨0 - 1, 0 + 2, 0⟩, b2.block_id)]] :=
  c8_fresh_placement sysEmpty ⟨0, 0, 0⟩ sessB (by decide) (by decide) (by decide)

theorem lastMinAxis_min (f : ℚ × ℚ × ℚ) (a : Axis) :
    fget f (lastMinAxis f) ≤ fget f a := by
  unfold lastMinAxis
  by_cases c1 : f.1 < f.2.1
  · by_cases c2 : f.1 < f.2.2
    · simp only [c1, c2, if_true]
      cases a <;> unfold fget <;> linarith
    · simp only [c1, c2, if_true, if_false]
      cases a <;> unfold fget <;> linarith
  · by_cases c3 : f.2.1 < f.2.2
    · simp only [c1, c3, if_true, if_false]
      cases a <;> unfold fget <;> linarith
    · simp only [c1, c3, if_false]
      cases a <;> unfold fget <;> linarith

theorem lastMinAxis_last (f : ℚ × ℚ × ℚ) (a : Axis)
    (h : axRank (lastMinAxis f) < axRank a) :
    fget f (lastMinAxis f) < fget f a := by
  unfold lastMinAxis at h ⊢
  by_cases c1 : f.1 < f.2.1
  · by_cases c2 : f.1 < f.2.2
    · simp only [c1, c2, if_true] at h ⊢
      cases a <;> first
        | (simp [axRank] at h; done)
        | (simp only [fget]; linarith)
    · simp only [c1, c2, if_true, if_false] at h ⊢
      cases a <;> simp [axRank] at h
  · by_cases c3 : f.2.1 < f.2.2
    · simp only [c1, c3, if_true, if_false] at h ⊢
      cases a <;> first
        | (simp [axRank] at h; done)
        | (simp only [fget]; linarith)
    · simp only [c1, c3, if_false] at h ⊢
      cases a <;> simp [axRank] at h

theorem rt_next_advances (s : RTState) (h1 : s.has_next_block = true)
    (h2 : ¬(1 < s.frac.1 ∧ 1 < s.frac.2.1 ∧ 1 < s.frac.2.2)) :
    (rt_next s).1 = some ⟨s.loc.1, s.loc.2.1, s.loc.2.2⟩ ∧
    (rt_next s).2.loc = bumpI s.loc (lastMinAxis s.frac) s.delta ∧
    (rt_next s).2.frac = bumpF s.frac (lastMinAxis s.frac) s.delta_div := by
  unfold rt_next
  rw [if_neg (by rw [h1]; simp), if_neg h2]
  unfold lastMinAxis bumpI bumpF
  by_cases c1 : s.frac.1 < s.frac.2.1
  · by_cases c2 : s.frac.1 < s.frac.2.2
    · simp [c1, c2]
    · simp [c1, c2]
  · by_cases c3 : s.frac.2.1 < s.frac.2.2
    · simp [c1, c3]
    · simp [c1, c3]

theorem iget_bumpI_of_zero (v : ℤ × ℤ × ℤ) (sel : Axis) (d : ℤ × ℤ × ℤ) (a : Axis)
    (h : iget d a = 0) : iget (bumpI v sel d) a = iget v a := by
  cases sel <;> cases a <;> simp [bumpI, iget] at h ⊢ <;> omega

theorem rt_new_zero_direction (start dir : Vec3)
    (hnb : (rt_new start dir).has_next_block = true) :
    (dir.x = 0 → (rt_new start dir).delta.1 = 0) ∧
    (dir.y = 0 → (rt_new start dir).delta.2.1 = 0) ∧
    (dir.z = 0 → (rt_new start dir).delta.2.2 = 0) := by
  unfold rt_new at hnb ⊢
  by_cases hse : (start : Vec3) =
      ⟨start.x + dir.x, start.y + dir.y, start.z + dir.z⟩
  · rw [if_pos hse] at hnb
    exact absurd hnb (by simp)
  · rw [if_neg hse] at hnb ⊢
    refine ⟨?_, ?_, ?_⟩ <;> intro hzero <;> dsimp only <;> rw [hzero] <;>
      unfold rt_lerp rt_sign <;> rw [if_pos (by ring)]

/-- C5 (amended): every advancing step of the traversal moves along the axis
with the smallest accumulated parametric fraction, but ties are broken toward
the LATER axis in (x, y, z) order (z wins any tie it is part of, y wins over
x), not in (x, y, z) priority; and an axis whose direction component is zero
gets sign 0 in the iterator state, so its voxel coordinate never changes. -/
theorem c5_dda_step_amended (s : RTState) (h1 : s.has_next_block = true)
    (h2 : ¬(1 < s.frac.1 ∧ 1 < s.frac.2.1 ∧ 1 < s.frac.2.2)) :
    ((rt_next s).2.loc = bumpI s.loc (lastMinAxis s.frac) s.delta ∧
     (∀ a, fget s.frac (lastMinAxis s.frac) ≤ fget s.frac a) ∧
     (∀ a, axRank (lastMinAxis s.frac) < axRank a →
        fget s.frac (lastMinAxis s.frac) < fget s.frac a) ∧
     (∀ a, iget s.delta a = 0 → iget (rt_next s).2.loc a = iget s.loc a)) ∧
    (∀ start dir : Vec3, (rt_new start dir).has_next_block = true →
      (dir.x = 0 → (rt_new start dir).delta.1 = 0) ∧
      (dir.y = 0 → (rt_new start dir).delta.2.1 = 0) ∧
      (dir.z = 0 → (rt_new start dir).delta.2.2 = 0)) := by
  obtain ⟨-, hloc, -⟩ := rt_next_advances s h1 h2
  refine ⟨⟨hloc, lastMinAxis_min s.frac, lastMinAxis_last s.frac, ?_⟩, ?_⟩
  · intro a ha
    rw [hloc]
    exact iget_bumpI_of_zero s.loc (lastMinAxis s.frac) s.delta a ha
  · intro start dir hnb
    exact rt_new_zero_direction start dir hnb

/-- C5 witness: `c5_dda_step_amended` at the concrete reachable state
`c5s 1` (x and z fractions tied, y exhausted): the step follows
`lastMinAxis` and that axis is minimal. -/
theorem c5_dda_step_amended_witness :
    (rt_next (c5s 1)).2.loc = bumpI (c5s 1).loc (lastMinAxis (c5s 1).frac) (c5s 1).delta ∧
    (∀ a, fget (c5s 1).frac (lastMinAxis (c5s 1).frac) ≤ fget (c5s 1).frac a) := by
  have h := c5_dda_step_amended (c5s 1) rfl (by norm_num [c5s, f64Max])
  exact ⟨h.1.1, h.1.2.1⟩

theorem c5s_new : rt_new ⟨0, 0, 0⟩ ⟨5, 0, 5⟩ = c5s 0 := by
  have hf1 : ⌊-((1 : ℚ) / 2000000)⌋ = -1 := by
    rw [Int.floor_eq_iff]
    constructor <;> norm_num
  unfold rt_new rt_lerp rt_sign lerpConstant c5s
  norm_num [rt_floor_eq_floor, rt_frac_eq_fract, Int.fract, hf1, f64Max]

theorem c5s_step0 : rt_next (c5s 0) = (some ⟨-1, 0, -1⟩, c5s 1) := by
  unfold rt_next c5s
  norm_num [f64Max]

theorem c5s_step1 : rt_next (c5s 1) = (some ⟨-1, 0, -1⟩, c5s 2) := by
  unfold rt_next c5s
  norm_num [f64Max]

/-- C5 counterexample: in the traversal of the real ray from `(0,0,0)` with
scaled direction `(5,0,5)`, the second step sees the x and z fractions
exactly tied (and minimal); the (x, y, z) priority of the claim picks x, yet
the step leaves the x coordinate unchanged (although `delta.x = 1`) and
advances z instead. -/
theorem c5_counterexample :
    (rt_next (rt_new ⟨0, 0, 0⟩ ⟨5, 0, 5⟩)).2 = c5s 1 ∧
    specMinAxis (c5s 1).frac = Axis.x ∧
    (c5s 1).delta.1 = 1 ∧
    (rt_next (c5s 1)).2.loc.1 = (c5s 1).loc.1 ∧
    (rt_next (c5s 1)).2.loc.2.2 = (c5s 1).loc.2.2 + 1 := by
  refine ⟨by rw [c5s_new, c5s_step0], ?_, by rfl, ?_, ?_⟩
  · unfold specMinAxis c5s
    norm_num [f64Max]
  · rw [c5s_step1]
    rfl
  · rw [c5s_step1]
    rfl

theorem c6s_new :
    rt_new ⟨0, 0, 0⟩ (normalize_scale (direction_from_yaw_pitch 0 1 0 1) 1 5) = c6s 0 := by
  have hf1 : ⌊-((1 : ℚ) / 2000000)⌋ = -1 := by
    rw [Int.floor_eq_iff]
    constructor <;> norm_num
  unfold direction_from_yaw_pitch normalize_scale rt_new rt_lerp rt_sign lerpConstant c6s
  norm_num [rt_floor_eq_floor, rt_frac_eq_fract, Int.fract, hf1, f64Max]

theorem c6s_step0 : rt_next (c6s 0) = (some ⟨0, 0, -1⟩, c6s 1) := by
  unfold rt_next c6s
  norm_num [f64Max]

theorem c6s_step1 : rt_next (c6s 1) = (some ⟨0, 0, -1⟩, c6s 2) := by
  unfold rt_next c6s
  norm_num [f64Max]

theorem c6s_step2 : rt_next (c6s 2) = (some ⟨0, 0, -1⟩, c6s 3) := by
  unfold rt_next c6s
  norm_num [f64Max]

theorem c6s_step3 : rt_next (c6s 3) = (some ⟨0, 0, 0⟩, c6s 4) := by
  unfold rt_next c6s
  norm_num [f64Max]

theorem c6s_step4 : rt_next (c6s 4) = (some ⟨0, 0, 1⟩, c6s 5) := by
  unfold rt_next c6s
  norm_num [f64Max]

theorem c6s_step5 : rt_next (c6s 5) = (some ⟨0, 0, 2⟩, c6s 6) := by
  unfold rt_next c6s
  norm_num [f64Max]

theorem c6s_step6 : rt_next (c6s 6) = (some ⟨0, 0, 3⟩, c6s 7) := by
  unfold rt_next c6s
  norm_num [f64Max]

theorem c6s_step7 : rt_next (c6s 7) = (some ⟨0, 0, 4⟩, c6s 8) := by
  unfold rt_next c6s
  norm_num [f64Max]

theorem c6s_step8 : rt_next (c6s 8) = (some ⟨0, 0, 5⟩, c6s 9) := by
  unfold rt_next c6s
  norm_num [f64Max]

theorem c6s_step9 : rt_next (c6s 9) = (none, c6s 9) := by
  unfold rt_next c6s
  norm_num

/-- The full output sequence of the claim C6 ray (yaw 0, pitch 0, origin
`(0,0,0)`, max distance 5). -/
theorem c6_run :
    rt_run 20 (rt_new ⟨0, 0, 0⟩ (normalize_scale (direction_from_yaw_pitch 0 1 0 1) 1 5)) =
      [⟨0, 0, -1⟩, ⟨0, 0, -1⟩, ⟨0, 0, -1⟩, ⟨0, 0, 0⟩, ⟨0, 0, 1⟩, ⟨0, 0, 2⟩, ⟨0, 0, 3⟩,
        ⟨0, 0, 4⟩, ⟨0, 0, 5⟩] := by
  rw [c6s_new]
  simp [rt_run, c6s_step0, c6s_step1, c6s_step2, c6s_step3, c6s_step4, c6s_step5, c6s_step6,
    c6s_step7, c6s_step8, c6s_step9]

/-- C6 (amended): the ray with yaw 0, pitch 0 points in `+z` (direction
`(0,0,1)`, already unit length); from origin `(0,0,0)` with max distance 5
the traversal yields 9 coordinates, all with x = y = 0; the first is
`(0,0,-1)` (the negative lerp epsilon nudges the start just below the voxel
boundary), repeated three times while the zero x and y axes are consumed,
after which z increases by exactly 1 per step from 0 up to 5. -/
theorem c6_forward_ray_amended :
    direction_from_yaw_pitch 0 1 0 1 = ⟨0, 0, 1⟩ ∧
    (direction_from_yaw_pitch 0 1 0 1).x ^ 2 + (direction_from_yaw_pitch 0 1 0 1).y ^ 2 +
      (direction_from_yaw_pitch 0 1 0 1).z ^ 2 = 1 ^ 2 ∧
    rt_run 20 (rt_new ⟨0, 0, 0⟩ (normalize_scale (direction_from_yaw_pitch 0 1 0 1) 1 5)) =
      [⟨0, 0, -1⟩, ⟨0, 0, -1⟩, ⟨0, 0, -1⟩, ⟨0, 0, 0⟩, ⟨0, 0, 1⟩, ⟨0, 0, 2⟩, ⟨0, 0, 3⟩,
        ⟨0, 0, 4⟩, ⟨0, 0, 5⟩] := by
  refine ⟨?_, ?_, c6_run⟩
  · unfold direction_from_yaw_pitch
    norm_num
  · unfold direction_from_yaw_pitch
    norm_num

/-- C6 counterexample: the first coordinate the ray yields is `(0,0,-1)`, not
the `(0,0,0)` the claim requires (and the value `(0,0,-1)` is repeated, so z
is not strictly increasing from the first step either). -/
theorem c6_counterexample :
    (rt_run 20 (rt_new ⟨0, 0, 0⟩
        (normalize_scale (direction_from_yaw_pitch 0 1 0 1) 1 5))).head? =
      some ⟨0, 0, -1⟩ ∧
    (⟨0, 0, -1⟩ : BlockPos) ≠ ⟨0, 0, 0⟩ ∧
    (rt_run 20 (rt_new ⟨0, 0, 0⟩
        (normalize_scale (direction_from_yaw_pitch 0 1 0 1) 1 5)))[1]? =
      some ⟨0, 0, -1⟩ := by
  rw [c6_run]
  refine ⟨rfl, by decide, rfl⟩
